import Mathlib

/-!
Shallow embedding of the structured file-editing engine of `fileio-mcp`
(`src/operations/edit_file.rs`, plus the windowing logic of
`src/operations/read_lines.rs`), together with theorems checking the
natural-language specification against it.

Modelling conventions:
* File content is a `List Char`; byte offsets of the Rust code become
  character indices (all inputs of interest are ASCII, where the two
  coincide).
* Rust `u32`/`u64`/`usize` line numbers and occurrence counters become
  `Nat` (the `u64_to_usize` conversion in the source can then never fail
  and is dropped).
* Fallible Rust functions returning `Result` become `Except FileIoError`.
* The external regex crate is not part of the repository; it is modelled
  as an abstract `RegexEngine` producing the ordered list of
  non-overlapping match spans (or a compile error).
* The filesystem seen by `edit_file` is reduced to the content of the one
  target path (`Option (List Char)`, `none` = file missing); path
  expansion is an external concern and is dropped.  The atomic-write
  collaborator is modelled by recording the final on-disk content and a
  flag telling whether the write was invoked.
-/

namespace FileioSpec

/-- Convert a Lean string literal to the `List Char` representation used
for file content throughout the embedding. -/
def str (s : String) : List Char := s.data

/-- Decimal rendering of a number, used inside error messages
(the `{}` interpolations of the Rust `format!` calls). -/
def natChars (n : Nat) : List Char := (Nat.repr n).data

/-- Error type, from `src/error.rs` (`FileIoError`).  Only the variants
reachable from the edit-file engine are modelled; the path carried by
`NotFound` and the payload of `RegexError` are dropped as external
concerns. -/
inductive FileIoError where
  | NotFound : FileIoError
  | InvalidPath : List Char → FileIoError
  | InvalidLineNumbers : List Char → FileIoError
  | ReadError : List Char → FileIoError
  | RegexError : FileIoError
deriving DecidableEq, Repr

/-- Model of the external regex crate: given a pattern and a haystack,
return the ordered list of non-overlapping match spans produced by
`Regex::find_iter`, or a compile error (`Regex::new` failing). -/
structure RegexEngine where
  run : List Char → List Char → Except Unit (List (Nat × Nat))

/-- A trivial concrete engine (every pattern compiles, nothing matches),
used to instantiate theorems at concrete inputs. -/
def eng0 : RegexEngine := ⟨fun _ _ => .ok []⟩

/-- Rust `str::find` on the suffix: index of the first position where
`needle` occurs in `haystack`, scanning left to right. -/
def findSub (haystack needle : List Char) : Option Nat :=
  if needle.isPrefixOf haystack then some 0
  else
    match haystack with
    | [] => none
    | _ :: rest => (findSub rest needle).map (· + 1)

/-- The literal-mode search loop of `find_nth_span`
(`edit_file.rs:306-321`): repeatedly find the next occurrence starting
after the end of the previous match, counting down the remaining
occurrence number (the Rust loop counts `i` up to `occurrence`; the
`start_from > haystack.len()` break check is kept verbatim).  The
`occurrence = 0` arm is unreachable from `find_nth_span`, which rejects
it upfront. -/
def findNthFrom (haystack needle : List Char) : Nat → Nat → Option (Nat × Nat)
  | 0, _ => none
  | 1, start_from =>
    match findSub (haystack.drop start_from) needle with
    | none => none
    | some pos => some (start_from + pos, start_from + pos + needle.length)
  | o + 2, start_from =>
    match findSub (haystack.drop start_from) needle with
    | none => none
    | some pos =>
      if start_from + pos + needle.length > haystack.length then none
      else findNthFrom haystack needle (o + 1) (start_from + pos + needle.length)

/-- The regex-mode occurrence selection of `find_nth_span`
(`edit_file.rs:296-305`): walk the match iterator, counting up to
`occurrence`. -/
def nthRegexMatch : List (Nat × Nat) → Nat → Option (Nat × Nat)
  | [], _ => none
  | _ :: _, 0 => none
  | m :: _, 1 => some m
  | _ :: rest, o + 2 => nthRegexMatch rest (o + 1)

/-- `find_nth_span` (`edit_file.rs:279-322`): resolve the span of the
`occurrence`-th match of `needle` in `haystack`. -/
def find_nth_span (eng : RegexEngine) (haystack needle : List Char)
    (use_regex : Bool) (occurrence : Nat) :
    Except FileIoError (Option (Nat × Nat)) :=
  if occurrence = 0 then
    .error (.InvalidLineNumbers (str "occurrence must be >= 1"))
  else if needle.isEmpty then
    .error (.InvalidPath (str "search must not be empty"))
  else if use_regex then
    match eng.run needle haystack with
    | .error _ => .error .RegexError
    | .ok ms => .ok (nthRegexMatch ms occurrence)
  else
    .ok (findNthFrom haystack needle occurrence 0)

/-- Helper for `compute_line_starts`: scan the remaining characters,
`idx` being the index of the head in the whole buffer, emitting `idx+1`
for every newline encountered. -/
def lineStartsFrom : List Char → Nat → List Nat
  | [], _ => []
  | c :: rest, idx =>
    if c = '\n' then (idx + 1) :: lineStartsFrom rest (idx + 1)
    else lineStartsFrom rest (idx + 1)

/-- `compute_line_starts` (`edit_file.rs:324-332`): offsets at which
lines begin, starting with 0, one more entry after every newline. -/
def compute_line_starts (content : List Char) : List Nat :=
  0 :: lineStartsFrom content 0

/-- `effective_line_count` (`edit_file.rs:334-340`). -/
def effective_line_count (content : List Char) : Nat :=
  if content.isEmpty then 1 else (compute_line_starts content).length

/-- Message of the out-of-range errors of `line_start_offset`. -/
def invalidLineMsg (line count : Nat) : List Char :=
  str "Invalid line number: " ++ natChars line ++ str " (file has "
    ++ natChars count ++ str " lines)"

/-- Fallthrough part of `line_start_offset` (`edit_file.rs:367-379`):
empty content resolves to 0, otherwise look the line up in the starts
table. -/
def line_start_tail (content : List Char) (line : Nat) :
    Except FileIoError Nat :=
  if content.isEmpty then .ok 0
  else
    let starts := compute_line_starts content
    match starts.get? (line - 1) with
    | some off => .ok off
    | none => .error (.InvalidLineNumbers (invalidLineMsg line starts.length))

/-- `line_start_offset` (`edit_file.rs:342-380`). -/
def line_start_offset (content : List Char) (line : Nat)
    (allow_past_end : Bool) : Except FileIoError Nat :=
  if line = 0 then
    .error (.InvalidLineNumbers (str "line must be >= 1"))
  else
    let count := effective_line_count content
    if allow_past_end then
      if line > count + 1 then
        .error (.InvalidLineNumbers (invalidLineMsg line count))
      else if line = count + 1 then .ok content.length
      else line_start_tail content line
    else if line > count then
      .error (.InvalidLineNumbers (invalidLineMsg line count))
    else line_start_tail content line

/-- Message of the range-bounds error of `line_range_offsets`. -/
def invalidRangeMsg (start_line end_line count : Nat) : List Char :=
  str "Invalid line range: " ++ natChars start_line ++ str ".."
    ++ natChars end_line ++ str " (file has " ++ natChars count
    ++ str " lines)"

/-- The `let count = ...` binding of `line_range_offsets`
(`edit_file.rs:401-407`). -/
def range_line_count (content : List Char)
    (allow_empty_file_as_one_line : Bool) : Nat :=
  if allow_empty_file_as_one_line then effective_line_count content
  else if content.isEmpty then 0
  else (compute_line_starts content).length

/-- `line_range_offsets` (`edit_file.rs:382-438`): half-open byte span
covering lines `start_line..end_line` inclusive. -/
def line_range_offsets (content : List Char) (start_line end_line : Nat)
    (allow_empty_file_as_one_line : Bool) :
    Except FileIoError (Nat × Nat) :=
  if start_line = 0 ∨ end_line = 0 then
    .error (.InvalidLineNumbers (str "line numbers must be >= 1"))
  else if start_line > end_line then
    .error (.InvalidLineNumbers
      (str "start_line (" ++ natChars start_line
        ++ str ") must be <= end_line (" ++ natChars end_line ++ str ")"))
  else
    let count := range_line_count content allow_empty_file_as_one_line
    if start_line > count ∨ end_line > count then
      .error (.InvalidLineNumbers (invalidRangeMsg start_line end_line count))
    else if content.isEmpty then .ok (0, 0)
    else
      let starts := compute_line_starts content
      match starts.get? (start_line - 1) with
      | none =>
        .error (.InvalidLineNumbers
          (str "Invalid start_line: " ++ natChars start_line
            ++ str " (file has " ++ natChars starts.length ++ str " lines)"))
      | some start_off =>
        let end_off :=
          if end_line < starts.length then
            (starts.get? end_line).getD content.length
          else content.length
        .ok (start_off, end_off)

/-- Insertion of `text` at a given offset (Rust `String::insert_str`). -/
def insertStr (content : List Char) (off : Nat) (text : List Char) :
    List Char :=
  content.take off ++ text ++ content.drop off

/-- Replacement of the half-open range `[s, e)` by `repl`
(Rust `String::replace_range`). -/
def replaceRange (content : List Char) (s e : Nat) (repl : List Char) :
    List Char :=
  content.take s ++ repl ++ content.drop e

/-- The slice `content[s..e]` (Rust `&content[s..e]`). -/
def slice (content : List Char) (s e : Nat) : List Char :=
  (content.take e).drop s

/-- Rust `str::ends_with(char)`. -/
def endsWithChar (content : List Char) (c : Char) : Bool :=
  content.getLast? == some c

/-- The `EditOperation` enum (`edit_file.rs:25-81`). -/
inductive EditOperation where
  | InsertAfter (search text : List Char) (use_regex : Bool)
      (occurrence : Nat) (require_match : Bool)
  | InsertBefore (search text : List Char) (use_regex : Bool)
      (occurrence : Nat) (require_match : Bool)
  | Replace (search text : List Char) (use_regex : Bool)
      (occurrence : Nat) (require_match : Bool)
  | Delete (search : List Char) (use_regex : Bool)
      (occurrence : Nat) (require_match : Bool)
  | InsertAtLine (line : Nat) (text : List Char)
  | ReplaceLines (start_line end_line : Nat) (text : List Char)
  | DeleteLines (start_line end_line : Nat)
deriving DecidableEq, Repr

/-- One arm of the dispatch loop of `edit_file` (`edit_file.rs:137-246`):
apply a single operation to the current buffer.  A `require_match = false`
miss is the Rust `continue`, returning the buffer unchanged. -/
def apply_edit (eng : RegexEngine) (content : List Char)
    (edit : EditOperation) : Except FileIoError (List Char) :=
  match edit with
  | .InsertAfter search text use_regex occurrence require_match =>
    match find_nth_span eng content search use_regex occurrence with
    | .error e => .error e
    | .ok none =>
      if require_match then
        .error (.InvalidPath
          (str "Edit failed: search pattern not found (insert_after): "
            ++ search))
      else .ok content
    | .ok (some (_, endo)) => .ok (insertStr content endo text)
  | .InsertBefore search text use_regex occurrence require_match =>
    match find_nth_span eng content search use_regex occurrence with
    | .error e => .error e
    | .ok none =>
      if require_match then
        .error (.InvalidPath
          (str "Edit failed: search pattern not found (insert_before): "
            ++ search))
      else .ok content
    | .ok (some (start, _)) => .ok (insertStr content start text)
  | .Replace search text use_regex occurrence require_match =>
    match find_nth_span eng content search use_regex occurrence with
    | .error e => .error e
    | .ok none =>
      if require_match then
        .error (.InvalidPath
          (str "Edit failed: search pattern not found (replace): "
            ++ search))
      else .ok content
    | .ok (some (start, endo)) => .ok (replaceRange content start endo text)
  | .Delete search use_regex occurrence require_match =>
    match find_nth_span eng content search use_regex occurrence with
    | .error e => .error e
    | .ok none =>
      if require_match then
        .error (.InvalidPath
          (str "Edit failed: search pattern not found (delete): "
            ++ search))
      else .ok content
    | .ok (some (start, endo)) => .ok (replaceRange content start endo [])
  | .InsertAtLine line text =>
    match line_start_offset content line true with
    | .error e => .error e
    | .ok insert_at => .ok (insertStr content insert_at text)
  | .ReplaceLines start_line end_line text =>
    match line_range_offsets content start_line end_line true with
    | .error e => .error e
    | .ok (start_off, end_off) =>
      let removed := slice content start_off end_off
      let replacement :=
        if endsWithChar removed '\n' && ! endsWithChar text '\n' then
          text ++ ['\n']
        else text
      .ok (replaceRange content start_off end_off replacement)
  | .DeleteLines start_line end_line =>
    match line_range_offsets content start_line end_line true with
    | .error e => .error e
    | .ok (start_off, end_off) => .ok (replaceRange content start_off end_off [])

/-- The operation loop of `edit_file` (`edit_file.rs:134-251`):
fold the operation list over the buffer, counting the operations that
changed the buffer byte-for-byte (`if content != before`). -/
def run_edits (eng : RegexEngine) :
    List Char → List EditOperation → Nat →
    Except FileIoError (List Char × Nat)
  | content, [], applied => .ok (content, applied)
  | content, e :: rest, applied =>
    match apply_edit eng content e with
    | .error err => .error err
    | .ok c2 =>
      run_edits eng c2 rest (if c2 = content then applied else applied + 1)

/-- `EditFileRequest` (`edit_file.rs:10-23`), with the path dropped
(path expansion is external). -/
structure EditFileRequest where
  edits : List EditOperation
  create_if_missing : Bool
  dry_run : Bool
  return_content : Bool
deriving Repr

/-- `EditFileResult` (`edit_file.rs:83-92`), with the echoed path
dropped. -/
structure EditFileResult where
  changed : Bool
  applied_edits : Nat
  dry_run : Bool
  content : Option (List Char)
deriving DecidableEq, Repr

/-- Result of one `edit_file` call together with its filesystem effect:
the returned value, the on-disk content of the target path afterwards,
and whether the atomic-write collaborator was invoked. -/
structure EditOutcome where
  result : Except FileIoError EditFileResult
  disk : Option (List Char)
  wrote : Bool
deriving Repr

/-- The content-loading step of `edit_file` (`edit_file.rs:114-129`):
missing file is an empty buffer when `create_if_missing`, otherwise a
`NotFound` error. -/
def load_content (fs : Option (List Char)) (create_if_missing : Bool) :
    Except FileIoError (List Char) :=
  match fs with
  | some s => .ok s
  | none => if create_if_missing then .ok [] else .error .NotFound

/-- `edit_file` (`edit_file.rs:102-271`) over the single-file filesystem
model: load, run the operation loop, compare against the original, and
invoke the atomic write only when the buffer changed and the request is
not a dry run. -/
def edit_file (eng : RegexEngine) (fs : Option (List Char))
    (req : EditFileRequest) : EditOutcome :=
  match load_content fs req.create_if_missing with
  | .error e => ⟨.error e, fs, false⟩
  | .ok original =>
    match run_edits eng original req.edits 0 with
    | .error e => ⟨.error e, fs, false⟩
    | .ok (content, applied) =>
      let changed : Bool := content != original
      let doWrite : Bool := changed && ! req.dry_run
      { result := .ok
          { changed := changed
            applied_edits := applied
            dry_run := req.dry_run
            content :=
              if req.return_content || req.dry_run then some content
              else none }
        disk := if doWrite then some content else fs
        wrote := doWrite }

/-- The windowing logic of `read_lines` (`read_lines.rs:35-88`), taking
the already-split list of lines (the `BufRead::lines` I/O is external).
Note the silent clamping `end.min(lines.len())`. -/
def read_lines (lines : List (List Char))
    (start_line end_line line_count start_offset : Option Nat) :
    Except FileIoError (List (List Char)) :=
  match (match start_line with
    | some s =>
      if s = 0 then
        Except.error (FileIoError.InvalidLineNumbers
          (str "Line numbers start at 1"))
      else Except.ok (s - 1)
    | none =>
      match start_offset with
      | some off => Except.ok off
      | none => Except.ok 0 : Except FileIoError Nat) with
  | .error e => .error e
  | .ok start =>
    match (match end_line with
      | some e =>
        if e = 0 then
          Except.error (FileIoError.InvalidLineNumbers
            (str "Line numbers start at 1"))
        else if e < (match start_line with | some s => s | none => 1) then
          Except.error (FileIoError.InvalidLineNumbers
            (str "end_line must be >= start_line"))
        else Except.ok e
      | none =>
        match line_count with
        | some count => Except.ok (start + count)
        | none => Except.ok lines.length : Except FileIoError Nat) with
    | .error e => .error e
    | .ok endv =>
      if start > lines.length then
        .error (.InvalidLineNumbers
          (str "start_line " ++ natChars (start + 1)
            ++ str " exceeds file length " ++ natChars lines.length))
      else
        let endv2 := min endv lines.length
        if start > endv2 then
          .error (.InvalidLineNumbers (str "start_line must be <= end_line"))
        else .ok ((lines.drop start).take (endv2 - start))

/-- Fuel-driven enumeration of the greedy non-overlapping left-to-right
matches of `needle` in `haystack`, as the spec describes literal search:
find the next occurrence, then resume scanning right after the end of
the match.  The fuel only serves termination;
`matchPositionsFrom` supplies enough of it. -/
def matchPositionsAux (haystack needle : List Char) : Nat → Nat → List Nat
  | 0, _ => []
  | fuel + 1, start =>
    match findSub (haystack.drop start) needle with
    | none => []
    | some pos =>
      (start + pos)
        :: matchPositionsAux haystack needle fuel (start + pos + needle.length)

/-- Positions of the non-overlapping left-to-right matches of `needle`
in `haystack` from offset `start` on, each scan resuming after the end
of the previous match. -/
def matchPositionsFrom (haystack needle : List Char) (start : Nat) :
    List Nat :=
  matchPositionsAux haystack needle (haystack.length + 1 - start) start

/-- Concrete request exhibiting `applied_edits > 0` together with
`changed = false`: delete a piece of text, then re-insert it. -/
def c10req : EditFileRequest :=
  { edits := [.Delete (str "b") false 1 true,
              .InsertAfter (str "a") (str "b") false 1 true]
    create_if_missing := false
    dry_run := false
    return_content := true }

/-- A successful prefix check bounds the length of the pattern. -/
theorem isPrefixOf_length :
    ∀ (n hs : List Char), n.isPrefixOf hs = true → n.length ≤ hs.length
  | [], _, _ => Nat.zero_le _
  | _ :: _, [], hp => by simp [List.isPrefixOf] at hp
  | a :: as, b :: bs, hp => by
    simp only [List.isPrefixOf, Bool.and_eq_true, beq_iff_eq] at hp
    have h := isPrefixOf_length as bs hp.2
    simpa [List.length_cons] using Nat.succ_le_succ h

/-- A match found by `findSub` lies entirely inside the haystack. -/
theorem findSub_bound (hs n : List Char) :
    ∀ (p : Nat), findSub hs n = some p → p + n.length ≤ hs.length := by
  induction hs with
  | nil =>
    intro p hp
    unfold findSub at hp
    split at hp
    · next hpre =>
      cases hp
      simpa using isPrefixOf_length n [] hpre
    · simp at hp
  | cons c rest ih =>
    intro p hp
    unfold findSub at hp
    split at hp
    · next hpre =>
      cases hp
      simpa using isPrefixOf_length n (c :: rest) hpre
    · simp only [Option.map_eq_some'] at hp
      obtain ⟨q, hq, rfl⟩ := hp
      have h := ih q hq
      simp only [List.length_cons]
      omega

/-- On an empty haystack a non-empty needle is never found. -/
theorem findSub_nil (n : List Char) (hne : n ≠ []) : findSub [] n = none := by
  cases n with
  | nil => exact absurd rfl hne
  | cons a as => rfl

/-- Claim C1: whenever the byte span removed by ReplaceLines ends with a
newline and the replacement text does not, the executed replacement is
the text with a newline appended; in particular on content
`a\nb\nc\n`, ReplaceLines(2,2,`B`) produces exactly `a\nB\nc\n`. -/
theorem c1_replace_lines_trailing_newline :
    (∀ (eng : RegexEngine) (content text : List Char) (s_l e_l s e : Nat),
      line_range_offsets content s_l e_l true = .ok (s, e) →
      endsWithChar (slice content s e) '\n' = true →
      endsWithChar text '\n' = false →
      apply_edit eng content (.ReplaceLines s_l e_l text)
        = .ok (replaceRange content s e (text ++ ['\n'])))
    ∧ apply_edit eng0 (str "a\nb\nc\n") (.ReplaceLines 2 2 (str "B"))
        = .ok (str "a\nB\nc\n") := by
  constructor
  · intro eng content text s_l e_l s e hrange hrm htext
    simp [apply_edit, hrange, hrm, htext]
  · rfl

/-- Witness for C1 at the spec's own example. -/
theorem c1_witness :
    line_range_offsets (str "a\nb\nc\n") 2 2 true = .ok (2, 4)
    ∧ endsWithChar (slice (str "a\nb\nc\n") 2 4) '\n' = true
    ∧ endsWithChar (str "B") '\n' = false
    ∧ apply_edit eng0 (str "a\nb\nc\n") (.ReplaceLines 2 2 (str "B"))
        = .ok (replaceRange (str "a\nb\nc\n") 2 4 (str "B" ++ ['\n'])) :=
  ⟨rfl, rfl, rfl,
    c1_replace_lines_trailing_newline.1 eng0 (str "a\nb\nc\n") (str "B")
      2 2 2 4 rfl rfl rfl⟩

/-- Counterexample to claim C3 as stated: with `use_regex = true`, an
empty search string IS rejected upfront with InvalidPath (the emptiness
check of `find_nth_span` precedes the regex branch), contradicting the
claim that regex mode does not reject it. -/
theorem c3_empty_search_counterexample :
    find_nth_span eng0 (str "abc") [] true 1
      = .error (.InvalidPath (str "search must not be empty")) := rfl

/-- Claim C3 (amended): an empty search string is rejected upfront with
InvalidPath in BOTH literal and regex mode, for every occurrence
number that survives the preceding occurrence check. -/
theorem c3_empty_search_rejected_both_modes :
    ∀ (eng : RegexEngine) (content : List Char) (use_regex : Bool)
      (occ : Nat), occ ≠ 0 →
      find_nth_span eng content [] use_regex occ
        = .error (.InvalidPath (str "search must not be empty")) := by
  intro eng content use_regex occ hocc
  simp [find_nth_span, hocc]

/-- Witness for the amended C3 in regex mode at a concrete input. -/
theorem c3_witness :
    (1 : Nat) ≠ 0
    ∧ find_nth_span eng0 (str "xyz") [] true 1
        = .error (.InvalidPath (str "search must not be empty")) :=
  ⟨by decide,
    c3_empty_search_rejected_both_modes eng0 (str "xyz") true 1 (by decide)⟩

/-- The occurrence-counting loop of literal search agrees with indexing
into the greedy non-overlapping match enumeration, for any fuel at least
`haystack.length + 1 - start`. -/
theorem findNthFrom_eq_matchAux (hay n : List Char) (hne : n ≠ []) :
    ∀ (fuel j start : Nat), hay.length + 1 - start ≤ fuel →
      findNthFrom hay n (j + 1) start
        = ((matchPositionsAux hay n fuel start).get? j).map
            (fun p => (p, p + n.length)) := by
  intro fuel
  induction fuel with
  | zero =>
    intro j start hfuel
    have hdrop : hay.drop start = [] := List.drop_eq_nil_of_le (by omega)
    cases j with
    | zero => simp [findNthFrom, matchPositionsAux, hdrop, findSub_nil n hne]
    | succ k => simp [findNthFrom, matchPositionsAux, hdrop, findSub_nil n hne]
  | succ f ih =>
    intro j start hfuel
    cases hfs : findSub (hay.drop start) n with
    | none =>
      cases j with
      | zero => simp [findNthFrom, matchPositionsAux, hfs]
      | succ k => simp [findNthFrom, matchPositionsAux, hfs]
    | some pos =>
      have hb := findSub_bound _ _ _ hfs
      rw [List.length_drop] at hb
      have hlen : 0 < n.length := List.length_pos.mpr hne
      have hle : ¬ start + pos + n.length > hay.length := by omega
      cases j with
      | zero => simp [findNthFrom, matchPositionsAux, hfs]
      | succ k =>
        have hrec := ih k (start + pos + n.length) (by omega)
        simp [findNthFrom, matchPositionsAux, hfs, hle, hrec]

/-- Claim C2: in literal mode with a non-empty search string and
occurrence `n ≥ 1`, `find_nth_span` returns exactly the `n`-th entry of
the greedy non-overlapping left-to-right match list (each scan resuming
after the end of the previous match), hence `Ok none` (not an error)
when fewer than `n` matches exist; in particular Replace of the second
`x` in `x x x` by `y` gives `x y x`. -/
theorem c2_literal_nth_occurrence :
    (∀ (eng : RegexEngine) (hay n : List Char) (occ : Nat),
      n ≠ [] → 1 ≤ occ →
      find_nth_span eng hay n false occ
        = .ok (((matchPositionsFrom hay n 0).get? (occ - 1)).map
            (fun p => (p, p + n.length))))
    ∧ (∀ (eng : RegexEngine) (hay n : List Char) (occ : Nat),
      n ≠ [] → 1 ≤ occ → (matchPositionsFrom hay n 0).length < occ →
      find_nth_span eng hay n false occ = .ok none)
    ∧ apply_edit eng0 (str "x x x") (.Replace (str "x") (str "y") false 2 true)
        = .ok (str "x y x") := by
  have main : ∀ (eng : RegexEngine) (hay n : List Char) (occ : Nat),
      n ≠ [] → 1 ≤ occ →
      find_nth_span eng hay n false occ
        = .ok (((matchPositionsFrom hay n 0).get? (occ - 1)).map
            (fun p => (p, p + n.length))) := by
    intro eng hay n occ hne hocc
    have hocc0 : occ ≠ 0 := by omega
    have hempty : n.isEmpty = false := by
      cases n with
      | nil => exact absurd rfl hne
      | cons a as => rfl
    have hsplit : occ = (occ - 1) + 1 := by omega
    rw [find_nth_span, if_neg hocc0, hempty]
    simp only [Bool.false_eq_true, if_false, cond_false]
    rw [hsplit,
      findNthFrom_eq_matchAux hay n hne (hay.length + 1 - 0) (occ - 1) 0
        (by omega)]
    rfl
  refine ⟨main, ?_, rfl⟩
  intro eng hay n occ hne hocc hlt
  rw [main eng hay n occ hne hocc]
  have hlen2 : (matchPositionsFrom hay n 0).length ≤ occ - 1 := by omega
  rw [List.get?_eq_none.mpr hlen2]
  rfl

/-- Witness for C2 at the spec's occurrence-selection example. -/
theorem c2_witness :
    (str "x" : List Char) ≠ []
    ∧ (1 : Nat) ≤ 2
    ∧ find_nth_span eng0 (str "x x x") (str "x") false 2
        = .ok (((matchPositionsFrom (str "x x x") (str "x") 0).get? 1).map
            (fun p => (p, p + (str "x").length))) :=
  ⟨by decide, by decide,
    c2_literal_nth_occurrence.1 eng0 (str "x x x") (str "x") 2
      (by decide) (by decide)⟩

/-- Specialization of `line_start_offset` at `allow_past_end = true`,
with the `count` binding inlined (definitional unfolding). -/
theorem line_start_offset_true_eq (content : List Char) (line : Nat) :
    line_start_offset content line true
      = if line = 0 then
          .error (.InvalidLineNumbers (str "line must be >= 1"))
        else if line > effective_line_count content + 1 then
          .error (.InvalidLineNumbers
            (invalidLineMsg line (effective_line_count content)))
        else if line = effective_line_count content + 1 then
          .ok content.length
        else line_start_tail content line := rfl

/-- Specialization of `line_range_offsets` at
`allow_empty_file_as_one_line = true`, with the `count` and `starts`
bindings inlined (definitional unfolding). -/
theorem line_range_offsets_true_eq (content : List Char) (s e : Nat) :
    line_range_offsets content s e true
      = if s = 0 ∨ e = 0 then
          .error (.InvalidLineNumbers (str "line numbers must be >= 1"))
        else if s > e then
          .error (.InvalidLineNumbers
            (str "start_line (" ++ natChars s
              ++ str ") must be <= end_line (" ++ natChars e ++ str ")"))
        else if s > effective_line_count content
            ∨ e > effective_line_count content then
          .error (.InvalidLineNumbers
            (invalidRangeMsg s e (effective_line_count content)))
        else if content.isEmpty then .ok (0, 0)
        else
          match (compute_line_starts content).get? (s - 1) with
          | none =>
            .error (.InvalidLineNumbers
              (str "Invalid start_line: " ++ natChars s ++ str " (file has "
                ++ natChars (compute_line_starts content).length
                ++ str " lines)"))
          | some start_off =>
            .ok (start_off,
              if e < (compute_line_starts content).length then
                ((compute_line_starts content).get? e).getD content.length
              else content.length) := rfl

/-- Every buffer has at least one effective line. -/
theorem effective_line_count_pos (content : List Char) :
    1 ≤ effective_line_count content := by
  unfold effective_line_count
  split
  · omega
  · simp [compute_line_starts]

/-- Claim C4: `line_range_offsets` rejects (InvalidLineNumbers) a zero
bound, an inverted range, and any bound past the effective line count —
no clamping; ReplaceLines(1,999) on a 3-line file fails — while the
sibling `read_lines` silently clamps `end_line` past end-of-file to the
file length and succeeds. -/
theorem c4_line_bounds_vs_clamping :
    (∀ (content : List Char) (s e : Nat), s = 0 ∨ e = 0 →
      line_range_offsets content s e true
        = .error (.InvalidLineNumbers (str "line numbers must be >= 1")))
    ∧ (∀ (content : List Char) (s e : Nat), ¬ (s = 0 ∨ e = 0) → s > e →
      line_range_offsets content s e true
        = .error (.InvalidLineNumbers
            (str "start_line (" ++ natChars s
              ++ str ") must be <= end_line (" ++ natChars e ++ str ")")))
    ∧ (∀ (content : List Char) (s e : Nat), ¬ (s = 0 ∨ e = 0) → ¬ s > e →
      s > effective_line_count content ∨ e > effective_line_count content →
      line_range_offsets content s e true
        = .error (.InvalidLineNumbers
            (invalidRangeMsg s e (effective_line_count content))))
    ∧ apply_edit eng0 (str "a\nb\nc") (.ReplaceLines 1 999 (str "T"))
        = .error (.InvalidLineNumbers (invalidRangeMsg 1 999 3))
    ∧ (∀ (lines : List (List Char)) (e : Nat), lines ≠ [] →
      lines.length ≤ e →
      read_lines lines (some 1) (some e) none none = .ok lines) := by
  refine ⟨?_, ?_, ?_, rfl, ?_⟩
  · intro content s e h
    rw [line_range_offsets_true_eq, if_pos h]
  · intro content s e h h2
    rw [line_range_offsets_true_eq, if_neg h, if_pos h2]
  · intro content s e h h2 h3
    rw [line_range_offsets_true_eq, if_neg h, if_neg h2, if_pos h3]
  · intro lines e hne hlen
    have hpos : 0 < lines.length := List.length_pos.mpr hne
    have he0 : e ≠ 0 := by omega
    have he1 : ¬ e < 1 := by omega
    simp only [read_lines, if_neg he0, if_neg he1]
    simp [Nat.min_eq_right hlen, Nat.not_lt_zero, List.take_length]

/-- Claim C5: with `allow_past_end = true`, `line_start_offset` fails
(InvalidLineNumbers) exactly on `line = 0` and `line > count+1`,
resolves `line = count+1` to the buffer length (append-at-end for
InsertAtLine), and otherwise resolves `line` to the offset at which
that line starts. -/
theorem c5_line_start_offset_past_end :
    ∀ (content : List Char) (line : Nat),
      ((line = 0 ∨ line > effective_line_count content + 1) →
        ∃ msg, line_start_offset content line true
          = .error (.InvalidLineNumbers msg))
      ∧ (line = effective_line_count content + 1 →
        line_start_offset content line true = .ok content.length)
      ∧ (1 ≤ line → line ≤ effective_line_count content →
        ∃ off, (compute_line_starts content).get? (line - 1) = some off
          ∧ line_start_offset content line true = .ok off) := by
  intro content line
  have hc1 : 1 ≤ effective_line_count content := effective_line_count_pos content
  refine ⟨?_, ?_, ?_⟩
  · rintro (rfl | hgt)
    · exact ⟨_, by rw [line_start_offset_true_eq, if_pos rfl]⟩
    · have h0 : ¬ line = 0 := by omega
      exact ⟨_, by rw [line_start_offset_true_eq, if_neg h0, if_pos hgt]⟩
  · intro heq
    have h0 : ¬ line = 0 := by omega
    have hgt : ¬ line > effective_line_count content + 1 := by omega
    rw [line_start_offset_true_eq, if_neg h0, if_neg hgt, if_pos heq]
  · intro h1 h2
    have h0 : ¬ line = 0 := by omega
    have hgt : ¬ line > effective_line_count content + 1 := by omega
    have hne : ¬ line = effective_line_count content + 1 := by omega
    rw [line_start_offset_true_eq, if_neg h0, if_neg hgt, if_neg hne]
    by_cases hcE : content.isEmpty
    · have hcontent : content = [] := List.isEmpty_iff.mp hcE
      subst hcontent
      have : line = 1 := by
        have : effective_line_count ([] : List Char) = 1 := rfl
        omega
      subst this
      exact ⟨0, rfl, rfl⟩
    · have hcount : effective_line_count content
          = (compute_line_starts content).length := by
        simp [effective_line_count, hcE]
      cases hg : (compute_line_starts content).get? (line - 1) with
      | none =>
        have := List.get?_eq_none.mp hg
        omega
      | some off =>
        refine ⟨off, rfl, ?_⟩
        have hg2 := hg
        rw [List.get?_eq_getElem?] at hg2
        simp [line_start_tail, hcE, hg2]

/-- Witness for C4: a zero bound is rejected, while `read_lines` with
`end_line` far past end-of-file succeeds and returns the whole file. -/
theorem c4_witness :
    line_range_offsets (str "x") 0 3 true
      = .error (.InvalidLineNumbers (str "line numbers must be >= 1"))
    ∧ read_lines [str "a", str "b"] (some 1) (some 9) none none
        = .ok [str "a", str "b"] :=
  ⟨c4_line_bounds_vs_clamping.1 (str "x") 0 3 (Or.inl rfl),
    c4_line_bounds_vs_clamping.2.2.2.2 [str "a", str "b"] 9
      (by decide) (by decide)⟩

/-- Witness for C5: on `a\nb` (2 lines), line 2 resolves to its start
offset and line 3 = count+1 resolves to the buffer length. -/
theorem c5_witness :
    (∃ off, (compute_line_starts (str "a\nb")).get? 1 = some off
      ∧ line_start_offset (str "a\nb") 2 true = .ok off)
    ∧ line_start_offset (str "a\nb") 3 true = .ok (str "a\nb").length :=
  ⟨(c5_line_start_offset_past_end (str "a\nb") 2).2.2 (by decide) (by decide),
    (c5_line_start_offset_past_end (str "a\nb") 3).2.1 (by decide)⟩

/-- Running a list of edits decomposes along an append: a successful
prefix hands its buffer and count to the rest. -/
theorem run_edits_append_ok (eng : RegexEngine) :
    ∀ (xs ys : List EditOperation) (c c2 : List Char) (a n : Nat),
      run_edits eng c xs a = .ok (c2, n) →
      run_edits eng c (xs ++ ys) a = run_edits eng c2 ys n := by
  intro xs
  induction xs with
  | nil =>
    intro ys c c2 a n h
    simp only [run_edits] at h
    cases h
    simp
  | cons op rest ih =>
    intro ys c c2 a n h
    rw [List.cons_append]
    simp only [run_edits] at h ⊢
    cases happ : apply_edit eng c op with
    | error e => rw [happ] at h; simp at h
    | ok c3 =>
      rw [happ] at h
      exact ih ys c3 c2 (if c3 = c then a else a + 1) n h

/-- Claim C6: a failing operation makes `edit_file` return that
operation's error (aborting at that operation), and an erroneous
`edit_file` call never writes to disk. -/
theorem c6_first_failure_aborts :
    (∀ (eng : RegexEngine) (fs : Option (List Char))
       (req : EditFileRequest) (e : FileIoError),
      (edit_file eng fs req).result = .error e →
      (edit_file eng fs req).disk = fs
        ∧ (edit_file eng fs req).wrote = false)
    ∧ (∀ (eng : RegexEngine) (fs : Option (List Char))
       (req : EditFileRequest) (orig c : List Char)
       (pre post : List EditOperation) (bad : EditOperation)
       (n : Nat) (e : FileIoError),
      req.edits = pre ++ bad :: post →
      load_content fs req.create_if_missing = .ok orig →
      run_edits eng orig pre 0 = .ok (c, n) →
      apply_edit eng c bad = .error e →
      (edit_file eng fs req).result = .error e
        ∧ (edit_file eng fs req).disk = fs
        ∧ (edit_file eng fs req).wrote = false) := by
  constructor
  · intro eng fs req e hres
    cases hl : load_content fs req.create_if_missing with
    | error e2 => simp [edit_file, hl]
    | ok orig =>
      cases hr : run_edits eng orig req.edits 0 with
      | error e2 => simp [edit_file, hl, hr]
      | ok p =>
        obtain ⟨c, n⟩ := p
        simp [edit_file, hl, hr] at hres
  · intro eng fs req orig c pre post bad n e hedits hl hpre hbad
    have hrun : run_edits eng orig req.edits 0 = .error e := by
      rw [hedits, run_edits_append_ok eng pre (bad :: post) orig c 0 n hpre]
      simp [run_edits, hbad]
    simp [edit_file, hl, hrun]

/-- Witness for C6: a bad DeleteLines aborts the request with its
InvalidLineNumbers error and the disk is untouched. -/
theorem c6_witness :
    (edit_file eng0 (some (str "a\n"))
        ⟨[.DeleteLines 5 5], false, false, false⟩).result
      = .error (.InvalidLineNumbers (invalidRangeMsg 5 5 2))
    ∧ (edit_file eng0 (some (str "a\n"))
        ⟨[.DeleteLines 5 5], false, false, false⟩).disk = some (str "a\n")
    ∧ (edit_file eng0 (some (str "a\n"))
        ⟨[.DeleteLines 5 5], false, false, false⟩).wrote = false :=
  c6_first_failure_aborts.2 eng0 (some (str "a\n"))
    ⟨[.DeleteLines 5 5], false, false, false⟩ (str "a\n") (str "a\n")
    [] [] (.DeleteLines 5 5) 0 (.InvalidLineNumbers (invalidRangeMsg 5 5 2))
    rfl rfl rfl rfl

/-- Claim C7: with `dry_run = true`, `edit_file` never invokes the file
write, leaves the disk unchanged, and populates the result's `content`
field with the would-be final buffer. -/
theorem c7_dry_run_no_write :
    ∀ (eng : RegexEngine) (fs : Option (List Char))
      (req : EditFileRequest), req.dry_run = true →
      (edit_file eng fs req).wrote = false
      ∧ (edit_file eng fs req).disk = fs
      ∧ (∀ r, (edit_file eng fs req).result = .ok r →
          ∃ (orig c : List Char) (n : Nat),
            load_content fs req.create_if_missing = .ok orig
            ∧ run_edits eng orig req.edits 0 = .ok (c, n)
            ∧ r.content = some c) := by
  intro eng fs req hdry
  cases hl : load_content fs req.create_if_missing with
  | error e =>
    refine ⟨by simp [edit_file, hl], by simp [edit_file, hl], ?_⟩
    intro r hres
    simp [edit_file, hl] at hres
  | ok orig =>
    cases hr : run_edits eng orig req.edits 0 with
    | error e =>
      refine ⟨by simp [edit_file, hl, hr], by simp [edit_file, hl, hr], ?_⟩
      intro r hres
      simp [edit_file, hl, hr] at hres
    | ok p =>
      obtain ⟨c, n⟩ := p
      refine ⟨by simp [edit_file, hl, hr, hdry],
        by simp [edit_file, hl, hr, hdry], ?_⟩
      intro r hres
      have hcalc : (edit_file eng fs req).result
          = .ok { changed := c != orig
                  applied_edits := n
                  dry_run := req.dry_run
                  content :=
                    if req.return_content || req.dry_run then some c
                    else none } := by
        simp [edit_file, hl, hr]
      rw [hcalc] at hres
      injection hres with hres
      subst hres
      exact ⟨orig, c, n, rfl, hr, by simp [hdry]⟩

/-- Witness for C7 at a concrete dry-run request. -/
theorem c7_witness :
    (edit_file eng0 (some (str "abc"))
        ⟨[.ReplaceLines 1 1 (str "z")], false, true, false⟩).wrote = false
    ∧ (edit_file eng0 (some (str "abc"))
        ⟨[.ReplaceLines 1 1 (str "z")], false, true, false⟩).disk
      = some (str "abc")
    ∧ ∃ (orig c : List Char) (n : Nat),
        load_content (some (str "abc")) false = .ok orig
        ∧ run_edits eng0 orig [.ReplaceLines 1 1 (str "z")] 0 = .ok (c, n)
        ∧ (⟨true, 1, true, some (str "z")⟩ : EditFileResult).content
            = some c := by
  have h := c7_dry_run_no_write eng0 (some (str "abc"))
    ⟨[.ReplaceLines 1 1 (str "z")], false, true, false⟩ rfl
  exact ⟨h.1, h.2.1, h.2.2 ⟨true, 1, true, some (str "z")⟩ rfl⟩

/-- Claim C8: when the search pattern has no `occurrence`-th match,
every anchor-based operation with `require_match = true` fails with an
error whose message contains the pattern, and with
`require_match = false` it is a no-op (buffer unchanged, contributing 0
to the applied count). -/
theorem c8_missing_anchor :
    ∀ (eng : RegexEngine) (content search text : List Char)
      (use_regex : Bool) (occ : Nat),
      find_nth_span eng content search use_regex occ = .ok none →
      (∃ pre, apply_edit eng content
          (.InsertAfter search text use_regex occ true)
        = .error (.InvalidPath (pre ++ search)))
      ∧ (∃ pre, apply_edit eng content
          (.InsertBefore search text use_regex occ true)
        = .error (.InvalidPath (pre ++ search)))
      ∧ (∃ pre, apply_edit eng content
          (.Replace search text use_regex occ true)
        = .error (.InvalidPath (pre ++ search)))
      ∧ (∃ pre, apply_edit eng content
          (.Delete search use_regex occ true)
        = .error (.InvalidPath (pre ++ search)))
      ∧ apply_edit eng content (.InsertAfter search text use_regex occ false)
          = .ok content
      ∧ apply_edit eng content (.InsertBefore search text use_regex occ false)
          = .ok content
      ∧ apply_edit eng content (.Replace search text use_regex occ false)
          = .ok content
      ∧ apply_edit eng content (.Delete search use_regex occ false)
          = .ok content
      ∧ ∀ (rest : List EditOperation) (applied : Nat),
          run_edits eng content
            (.Replace search text use_regex occ false :: rest) applied
          = run_edits eng content rest applied := by
  intro eng content search text use_regex occ hfind
  have hok : apply_edit eng content (.Replace search text use_regex occ false)
      = .ok content := by simp [apply_edit, hfind]
  refine ⟨⟨str "Edit failed: search pattern not found (insert_after): ",
      by simp [apply_edit, hfind]⟩,
    ⟨str "Edit failed: search pattern not found (insert_before): ",
      by simp [apply_edit, hfind]⟩,
    ⟨str "Edit failed: search pattern not found (replace): ",
      by simp [apply_edit, hfind]⟩,
    ⟨str "Edit failed: search pattern not found (delete): ",
      by simp [apply_edit, hfind]⟩,
    by simp [apply_edit, hfind], by simp [apply_edit, hfind], hok,
    by simp [apply_edit, hfind], ?_⟩
  intro rest applied
  simp [run_edits, hok]

/-- Witness for C8 at a concrete missed literal anchor. -/
theorem c8_witness :
    (∃ pre, apply_edit eng0 (str "abc")
        (.Replace (str "zz") (str "T") false 1 true)
      = .error (.InvalidPath (pre ++ str "zz")))
    ∧ apply_edit eng0 (str "abc") (.Replace (str "zz") (str "T") false 1 false)
        = .ok (str "abc")
    ∧ run_edits eng0 (str "abc")
        [.Replace (str "zz") (str "T") false 1 false] 5
      = run_edits eng0 (str "abc") [] 5 := by
  obtain ⟨hIA, hIB, hR, hD, hIAo, hIBo, hRo, hDo, hrun⟩ :=
    c8_missing_anchor eng0 (str "abc") (str "zz") (str "T") false 1 rfl
  exact ⟨hR, hRo, hrun [] 5⟩

/-- When the scanned text ends with a newline, the last line start
emitted is the offset just past the end of the text. -/
theorem lineStartsFrom_getLast (content : List Char) :
    ∀ (idx : Nat), content.getLast? = some '\n' →
      (lineStartsFrom content idx).getLast? = some (idx + content.length) := by
  induction content with
  | nil => intro idx h; simp at h
  | cons c rest ih =>
    intro idx h
    cases rest with
    | nil =>
      simp only [List.getLast?_singleton, Option.some.injEq] at h
      subst h
      simp [lineStartsFrom]
    | cons d rest2 =>
      have h2 : (d :: rest2).getLast? = some '\n' := by
        rwa [List.getLast?_cons_cons] at h
      have ihx := ih (idx + 1) h2
      obtain ⟨y, ys, hL⟩ :
          ∃ y ys, lineStartsFrom (d :: rest2) (idx + 1) = y :: ys := by
        cases hL : lineStartsFrom (d :: rest2) (idx + 1) with
        | nil => rw [hL] at ihx; simp at ihx
        | cons y ys => exact ⟨y, ys, rfl⟩
      have harith : idx + 1 + (d :: rest2).length
          = idx + (c :: d :: rest2).length := by
        simp [List.length_cons]; omega
      by_cases hc : c = '\n'
      · rw [show lineStartsFrom (c :: d :: rest2) idx
            = (idx + 1) :: lineStartsFrom (d :: rest2) (idx + 1) by
            simp [lineStartsFrom, hc]]
        rw [hL, List.getLast?_cons_cons, ← hL, ihx, harith]
      · rw [show lineStartsFrom (c :: d :: rest2) idx
            = lineStartsFrom (d :: rest2) (idx + 1) by
            simp [lineStartsFrom, hc]]
        rw [ihx, harith]

/-- When the buffer ends with a newline, the last entry of the line
starts table is the buffer length (the start of the empty final line). -/
theorem compute_line_starts_getLast (content : List Char)
    (h : content.getLast? = some '\n') :
    (compute_line_starts content).getLast? = some content.length := by
  have hx := lineStartsFrom_getLast content 0 h
  unfold compute_line_starts
  obtain ⟨y, ys, hL⟩ : ∃ y ys, lineStartsFrom content 0 = y :: ys := by
    cases hL : lineStartsFrom content 0 with
    | nil => rw [hL] at hx; simp at hx
    | cons y ys => exact ⟨y, ys, rfl⟩
  rw [hL, List.getLast?_cons_cons, ← hL, hx]
  simp

/-- Claim C9: a non-empty buffer ending in a newline has an (empty)
final effective line after the last newline — `a\n` counts 2 lines —
so ReplaceLines/DeleteLines may target that line: it resolves to the
empty span at the end of the buffer, and DeleteLines of it leaves the
buffer unchanged. -/
theorem c9_trailing_newline_extra_line :
    (∀ (eng : RegexEngine) (content : List Char), content ≠ [] →
      endsWithChar content '\n' = true →
      line_range_offsets content (effective_line_count content)
          (effective_line_count content) true
        = .ok (content.length, content.length)
      ∧ apply_edit eng content
          (.DeleteLines (effective_line_count content)
            (effective_line_count content))
        = .ok content)
    ∧ effective_line_count (str "a\n") = 2
    ∧ apply_edit eng0 (str "a\n") (.DeleteLines 2 2) = .ok (str "a\n") := by
  refine ⟨?_, rfl, rfl⟩
  intro eng content hne hends
  have hlast : content.getLast? = some '\n' := by
    simpa [endsWithChar] using hends
  have hcE : content.isEmpty = false := by
    cases content with
    | nil => exact absurd rfl hne
    | cons c cs => rfl
  have hcount : effective_line_count content
      = (compute_line_starts content).length := by
    simp [effective_line_count, hcE]
  have hc1 : 1 ≤ effective_line_count content := effective_line_count_pos content
  have hget : (compute_line_starts content).get? (effective_line_count content - 1)
      = some content.length := by
    rw [hcount, ← List.getLast?_eq_get?]
    exact compute_line_starts_getLast content hlast
  have hA : line_range_offsets content (effective_line_count content)
      (effective_line_count content) true
      = .ok (content.length, content.length) := by
    rw [line_range_offsets_true_eq]
    rw [if_neg (by omega :
      ¬ (effective_line_count content = 0 ∨ effective_line_count content = 0))]
    rw [if_neg (by omega :
      ¬ effective_line_count content > effective_line_count content)]
    rw [if_neg (by omega :
      ¬ (effective_line_count content > effective_line_count content
        ∨ effective_line_count content > effective_line_count content))]
    rw [if_neg (show ¬ content.isEmpty = true by simp [hcE])]
    rw [hget]
    rw [if_neg (show ¬ effective_line_count content
        < (compute_line_starts content).length by omega)]
  refine ⟨hA, ?_⟩
  simp only [apply_edit, hA]
  simp [replaceRange, List.take_length, List.drop_length]

/-- Witness for C9 on the two-visible-line buffer `ab\n`. -/
theorem c9_witness :
    line_range_offsets (str "ab\n") (effective_line_count (str "ab\n"))
        (effective_line_count (str "ab\n")) true
      = .ok ((str "ab\n").length, (str "ab\n").length)
    ∧ apply_edit eng0 (str "ab\n")
        (.DeleteLines (effective_line_count (str "ab\n"))
          (effective_line_count (str "ab\n")))
      = .ok (str "ab\n") :=
  c9_trailing_newline_extra_line.1 eng0 (str "ab\n") (by decide) (by decide)

/-- Claim C10: `applied_edits` counts exactly the operations that
changed the buffer relative to the buffer just before them, while
`changed` compares the final buffer against the original; a request
that deletes text and re-inserts it yields `applied_edits = 2`,
`changed = false`, and no write. -/
theorem c10_applied_vs_changed :
    (∀ (eng : RegexEngine) (content c2 : List Char) (op : EditOperation)
       (rest : List EditOperation) (a : Nat),
      apply_edit eng content op = .ok c2 →
      run_edits eng content (op :: rest) a
        = run_edits eng c2 rest (if c2 = content then a else a + 1))
    ∧ (∀ (eng : RegexEngine) (fs : Option (List Char))
       (req : EditFileRequest) (orig c : List Char) (applied : Nat)
       (r : EditFileResult),
      load_content fs req.create_if_missing = .ok orig →
      run_edits eng orig req.edits 0 = .ok (c, applied) →
      (edit_file eng fs req).result = .ok r →
      r.applied_edits = applied ∧ r.changed = (c != orig))
    ∧ ((edit_file eng0 (some (str "ab")) c10req).result
        = .ok ⟨false, 2, false, some (str "ab")⟩
      ∧ (edit_file eng0 (some (str "ab")) c10req).wrote = false
      ∧ (edit_file eng0 (some (str "ab")) c10req).disk = some (str "ab")) := by
  refine ⟨?_, ?_, rfl, rfl, rfl⟩
  · intro eng content c2 op rest a happ
    simp only [run_edits, happ]
  · intro eng fs req orig c applied r hl hr hres
    have hcalc : (edit_file eng fs req).result
        = .ok { changed := c != orig
                applied_edits := applied
                dry_run := req.dry_run
                content :=
                  if req.return_content || req.dry_run then some c
                  else none } := by
      simp [edit_file, hl, hr]
    rw [hcalc] at hres
    injection hres with hres
    subst hres
    exact ⟨rfl, rfl⟩

/-- Witness for C10's counting rule at a concrete changing operation. -/
theorem c10_witness :
    run_edits eng0 (str "q") [.InsertAtLine 1 (str "p")] 0
      = run_edits eng0 (str "pq") []
          (if (str "pq") = (str "q") then 0 else 1) :=
  c10_applied_vs_changed.1 eng0 (str "q") (str "pq")
    (.InsertAtLine 1 (str "p")) [] 0 rfl

end FileioSpec
